import Mathlib

/-!
Verification development for the reflection-accessor layer and build helpers
of the rust-protobuf repository.

Part A models the accessor layer (the spec's §4.2-§4.4 storage shapes); the
concrete accessor implementation modules are re-exported by
`src/protobuf/src/reflect/rt.rs` but their bodies are not among the given
sources, so those definitions are modelled from the spec.

Part B embeds `src/protobuf/src/reflect/rt.rs` (the factory export list).

Part C embeds `src/test-crates/protobuf-test-common/src/build.rs`
(`read_gitignore`, `clean_recursively`, `list_tests_in_dir`,
`copy_tests_v2_v3`) as pure functions over an explicit file-system model.
-/

namespace RustProtobuf

/-! ## Part A: accessor layer, modelled from the spec -/

/-- Modelled from the spec: storage of an explicit-presence singular scalar
field (`make_singular_copy_has_get_set_accessor`, whose implementation module
is not among the sources): "scalar stored inline with a separate presence
flag" (spec §4.2). -/
structure SingularHasField (V : Type) where
  value : V
  presence : Bool

/-- Modelled from the spec: `set` "replaces the value and updates presence". -/
def singular_set {V : Type} (_m : SingularHasField V) (v : V) : SingularHasField V :=
  ⟨v, true⟩

/-- Modelled from the spec: `get` "returns a copy" of the inline value. -/
def singular_get {V : Type} (m : SingularHasField V) : V :=
  m.value

/-- Modelled from the spec: `has` reads the separate presence flag, never the
value (presence is "independent of whether the value equals the type default"). -/
def singular_has {V : Type} (m : SingularHasField V) : Bool :=
  m.presence

/-- Modelled from the spec: a fresh explicit-presence field is unset. -/
def singular_fresh {V : Type} (dflt : V) : SingularHasField V :=
  ⟨dflt, false⟩

/-- Modelled from the spec: storage of a singular submessage field
(`make_singular_message_has_get_mut_set_accessor`, implementation module
not among the sources): "submessage stored in an owned-nullable slot". -/
structure MessageField (M : Type) where
  slot : Option M

/-- Modelled from the spec: a fresh message has the submessage slot absent. -/
def message_fresh {M : Type} : MessageField M :=
  ⟨none⟩

/-- Modelled from the spec: `has` "reports populated/absent". -/
def message_has {M : Type} (f : MessageField M) : Bool :=
  f.slot.isSome

/-- Modelled from the spec: `get_mut` "lazily default-constructs on first
mutable access and marks present"; returns the updated message together with
the submessage instance now stored in it. -/
def message_get_mut {M : Type} (dflt : M) (f : MessageField M) : MessageField M × M :=
  match f.slot with
  | some m => (⟨some m⟩, m)
  | none => (⟨some dflt⟩, dflt)

/-- Modelled from the spec: "read-only get on an absent slot returns a shared
default instance so callers need not branch on presence before reading". -/
def message_get {M : Type} (sharedDefault : M) (f : MessageField M) : M :=
  match f.slot with
  | some m => m
  | none => sharedDefault

/-- Modelled from the spec: storage of a presence-less ("simple") field
(`make_simple_field_accessor`, implementation module not among the sources):
no separate presence flag, only the inline value (spec §4.2). -/
structure SimpleField (V : Type) where
  value : V

/-- Modelled from the spec: `set` of a simple field "acts directly on the
inline value". -/
def simple_set {V : Type} (_m : SimpleField V) (v : V) : SimpleField V :=
  ⟨v⟩

/-- Modelled from the spec: `get` of a simple field reads the inline value. -/
def simple_get {V : Type} (m : SimpleField V) : V :=
  m.value

/-- Modelled from the spec: for simple fields "has(msg) reports value ≠
default"; the declared default is fixed per field at registration. -/
def simple_has {V : Type} [DecidableEq V] (dflt : V) (m : SimpleField V) : Bool :=
  decide (m.value ≠ dflt)

/-- Modelled from the spec: a repeated field wraps "an ordered, growable
sequence of one element type" (`make_vec_accessor`, implementation module not
among the sources). -/
structure RepeatedField (V : Type) where
  elems : List V

/-- Modelled from the spec: a fresh repeated field is empty. -/
def repeated_fresh {V : Type} : RepeatedField V :=
  ⟨[]⟩

/-- Modelled from the spec: the mutable handle supports append (`push`);
"no implicit ordering or deduplication is performed". -/
def repeated_push {V : Type} (f : RepeatedField V) (v : V) : RepeatedField V :=
  ⟨f.elems ++ [v]⟩

/-- Modelled from the spec: the mutable handle supports clear. -/
def repeated_clear {V : Type} (_f : RepeatedField V) : RepeatedField V :=
  ⟨[]⟩

/-- Modelled from the spec: `get` returns a read-only view whose iteration
order is the insertion order. -/
def repeated_get {V : Type} (f : RepeatedField V) : List V :=
  f.elems

/-- Modelled from the spec: the view exposes the length of the sequence. -/
def repeated_len {V : Type} (f : RepeatedField V) : Nat :=
  f.elems.length

/-- Modelled from the spec: a map field wraps "a key-unique mapping"
(`make_map_accessor`, implementation module not among the sources); modelled
as an association list with unique keys. -/
def map_insert {K V : Type} [DecidableEq K] : List (K × V) → K → V → List (K × V)
  | [], k, v => [(k, v)]
  | (k0, v0) :: rest, k, v =>
    if k0 = k then (k, v) :: rest else (k0, v0) :: map_insert rest k v

/-- Modelled from the spec: lookup of a key in the map view. -/
def map_lookup {K V : Type} [DecidableEq K] : List (K × V) → K → Option V
  | [], _ => none
  | (k0, v0) :: rest, k => if k0 = k then some v0 else map_lookup rest k

/-- Modelled from the spec: full enumeration of the map's keys. -/
def map_keys {K V : Type} (m : List (K × V)) : List K :=
  m.map Prod.fst

/-- Modelled from the spec: the neutral tagged `Value` representation crossing
the type-erasure boundary (spec §3; the concrete `Value` module is not among
the sources). Floating-point payloads are irrelevant to the claims and
omitted. -/
inductive PValue where
  | vBool (b : Bool)
  | vInt32 (i : Int)
  | vInt64 (i : Int)
  | vUInt32 (n : Nat)
  | vUInt64 (n : Nat)
  | vEnum (n : Int)
  | vString (s : String)
  | vBytes (bs : List Nat)
deriving DecidableEq

/-- Modelled from the spec: the kind (tag) of a `Value`. -/
inductive PKind where
  | kBool | kInt32 | kInt64 | kUInt32 | kUInt64 | kEnum | kString | kBytes
deriving DecidableEq

/-- Modelled from the spec: the kind carried by each `Value`. -/
def PValue.kind : PValue → PKind
  | .vBool _ => .kBool
  | .vInt32 _ => .kInt32
  | .vInt64 _ => .kInt64
  | .vUInt32 _ => .kUInt32
  | .vUInt64 _ => .kUInt64
  | .vEnum _ => .kEnum
  | .vString _ => .kString
  | .vBytes _ => .kBytes

/-- Modelled from the spec: a generated message type `A` with one
explicit-presence int32 field. -/
structure MsgA where
  n32 : SingularHasField Int

/-- Modelled from the spec: a second, unrelated generated message type `B`. -/
structure MsgB where
  s : SimpleField String

/-- Modelled from the spec: the erased message handle an accessor receives;
the accessor must downcast it to its own message type. -/
inductive DynMessage where
  | mA (a : MsgA)
  | mB (b : MsgB)

/-- Modelled from the spec: the dynamic `set` of the accessor registered for
`MsgA.n32`. A `Value` of the wrong kind, or a handle to a message of the
wrong type, "must fail fast (fatal assertion), never be silently coerced";
the fatal assertion is modelled as `none`. -/
def setA_n32 : DynMessage → PValue → Option DynMessage
  | DynMessage.mA a, PValue.vInt32 i => some (DynMessage.mA ⟨singular_set a.n32 i⟩)
  | _, _ => none

/-! ## Part B: the factory export list of `reflect/rt.rs` -/

/-- The three accessor factory families of `reflect/rt.rs`, identified by the
module each factory is re-exported from (`reflect::accessor::map`,
`reflect::accessor::repeated`, `reflect::accessor::singular`). -/
inductive AccessorShape where
  | singularShape
  | repeatedShape
  | mapShape
deriving DecidableEq

/-- The accessor factory functions re-exported by `reflect/rt.rs` (lines
5-15), in source order, each paired with the family of its defining module. -/
def rt_factory_exports : List (String × AccessorShape) :=
  [("make_map_accessor", AccessorShape.mapShape),
   ("make_vec_accessor", AccessorShape.repeatedShape),
   ("make_repeated_field_accessor", AccessorShape.repeatedShape),
   ("make_singular_copy_has_get_set_accessor", AccessorShape.singularShape),
   ("make_singular_string_has_get_set_accessor", AccessorShape.singularShape),
   ("make_singular_bytes_has_get_set_accessor", AccessorShape.singularShape),
   ("make_singular_message_has_get_mut_set_accessor", AccessorShape.singularShape),
   ("make_option_accessor", AccessorShape.singularShape),
   ("make_singular_field_accessor", AccessorShape.singularShape),
   ("make_singular_ptr_field_accessor", AccessorShape.singularShape),
   ("make_simple_field_accessor", AccessorShape.singularShape)]

/-- Number of exported factories of a given family. -/
def rt_count (sh : AccessorShape) : Nat :=
  (rt_factory_exports.filter (fun f => f.2 = sh)).length

/-! ## Part C: `protobuf-test-common/src/build.rs`

String primitives are implemented over the character lists underlying
`String`, mirroring the Rust standard-library operations used by `build.rs`
(`ends_with`, `starts_with`, byte-slicing off an ASCII suffix, line
splitting, `str::replace`, and the lexicographic `Ord` used by
`Vec::<String>::sort`). -/

/-- Rust `str::ends_with`. -/
def str_ends_with (s pat : String) : Bool :=
  pat.data.isSuffixOf s.data

/-- Rust `str::starts_with`. -/
def str_starts_with (s pat : String) : Bool :=
  pat.data.isPrefixOf s.data

/-- Dropping the last `n` characters of a string (build.rs slices off the
ASCII suffixes `".rs"` and `"\r"`, on which byte and character counts
agree). -/
def str_drop_right (s : String) (n : Nat) : String :=
  ⟨s.data.take (s.data.length - n)⟩

/-- Splitting a character list at every newline character: the semantics of
iterating `BufRead::lines` before the per-line trimming. -/
def split_nl : List Char → List (List Char)
  | [] => [[]]
  | c :: rest =>
    if c = '\n' then [] :: split_nl rest
    else
      match split_nl rest with
      | [] => [[c]]
      | l :: ls => (c :: l) :: ls

/-- Lexicographic comparison of character lists by code point; on UTF-8
encoded strings this is exactly the byte-lexicographic `Ord` Rust's
`Vec::<String>::sort` uses. -/
def chars_le : List Char → List Char → Bool
  | [], _ => true
  | _ :: _, [] => false
  | a :: as, b :: bs =>
    if a < b then true
    else if b < a then false
    else chars_le as bs

/-- The string order of Rust's `Vec::<String>::sort`. -/
def str_le (a b : String) : Bool :=
  chars_le a.data b.data

/-- `str_le` as a relation, for use with `List.insertionSort`. -/
def str_order (a b : String) : Prop :=
  str_le a b = true

instance str_order_decidable : DecidableRel str_order :=
  fun a b => inferInstanceAs (Decidable (str_le a b = true))

/-- A file-system tree: `build.rs` walks directories whose entries are plain
files (with contents) or subdirectories. -/
inductive FsEntry where
  | file (name : String) (content : String)
  | dir (name : String) (entries : List FsEntry)

/-- The pattern lines `read_gitignore` (build.rs lines 31-49) keeps from a
`.gitignore` file's content: each line (as produced by `BufRead::lines`,
which strips the newline and a trailing carriage return) that is non-empty
and does not start with `#`. -/
def read_gitignore_lines (content : String) : List String :=
  ((split_nl content.data).map (fun l => (⟨l⟩ : String))).filterMap (fun raw =>
    let line := if str_ends_with raw "\r" then str_drop_right raw 1 else raw
    if line = "" then none
    else if str_starts_with line "#" then none
    else some line)

/-- `read_gitignore` of a directory: the kept pattern lines of the directory's
`.gitignore` file when one exists, otherwise no patterns. -/
def dir_gitignore (es : List FsEntry) : List String :=
  match es.find? (fun e =>
    match e with
    | FsEntry.file n _ => n == ".gitignore"
    | FsEntry.dir _ _ => false) with
  | some (FsEntry.file _ c) => read_gitignore_lines c
  | _ => []

/-- The body of the entry loop of `clean_recursively` (build.rs lines 66-86),
acting on the entry list of one directory. `pats` is the pattern list already
extended with this directory's `.gitignore` patterns (build.rs lines 56-64);
`matchesP p n` stands for `glob::Pattern::new(p).matches(n)`. Subdirectories
are cleaned recursively with the extended pattern list; a file named
`.gitignore` is kept; any other file is removed exactly when some pattern
matches its name (the inner `for`-with-`break` loop). -/
def clean_entries (matchesP : String → String → Bool) (pats : List String) :
    List FsEntry → List FsEntry
  | [] => []
  | FsEntry.dir n es :: rest =>
    FsEntry.dir n (clean_entries matchesP (pats ++ dir_gitignore es) es) ::
      clean_entries matchesP pats rest
  | FsEntry.file n c :: rest =>
    if n = ".gitignore" then FsEntry.file n c :: clean_entries matchesP pats rest
    else if pats.any (fun p => matchesP p n) then clean_entries matchesP pats rest
    else FsEntry.file n c :: clean_entries matchesP pats rest

/-- `clean_recursively` (build.rs lines 51-87) on a directory: extend the
supplied patterns with the directory's own `.gitignore` patterns, then process
its entries. (On a non-directory the function asserts; the model returns the
entry unchanged.) -/
def clean_recursively (matchesP : String → String → Bool) (pats : List String) :
    FsEntry → FsEntry
  | FsEntry.file n c => FsEntry.file n c
  | FsEntry.dir n es =>
    FsEntry.dir n (clean_entries matchesP (pats ++ dir_gitignore es) es)

/-- The filter of `list_tests_in_dir` (build.rs lines 225-255): skip names
ending in `.` (temporary files), names not ending in `.rs`, names ending in
`_pb.rs`, and `mod.rs`; strip the `.rs` suffix from the rest. -/
def test_name_of_file (n : String) : Option String :=
  if str_ends_with n "." then none
  else if !str_ends_with n ".rs" || str_ends_with n "_pb.rs" then none
  else if n = "mod.rs" then none
  else some (str_drop_right n 3)

/-- `list_tests_in_dir` (build.rs lines 225-255) over the file names of a
directory's entries, in whatever order the directory enumerates them: keep
and strip the test file names, then sort ("Make test stable"). -/
def list_tests_in_dir (names : List String) : List String :=
  List.insertionSort str_order (names.filterMap test_name_of_file)

/-- One step of Rust `str::replace`: try to strip `pat` as a prefix of `s`,
returning the remainder on success. -/
def strip_front : List Char → List Char → Option (List Char)
  | [], s => some s
  | _ :: _, [] => none
  | p :: ps, c :: cs => if p = c then strip_front ps cs else none

/-- Rust `str::replace` on character lists: replace each leftmost
non-overlapping occurrence of `pat` by `repl`, scanning left to right. The
fuel argument (instantiated with the length of `s`) only makes the recursion
structural; it never runs out, because each step consumes at least one
character of `s`. -/
def replace_fuel (pat repl : List Char) : Nat → List Char → List Char
  | _, [] => []
  | 0, s => s
  | fuel + 1, c :: rest =>
    match strip_front pat (c :: rest) with
    | some after => repl ++ replace_fuel pat repl fuel after
    | none => c :: replace_fuel pat repl fuel rest

/-- Rust `str::replace` on strings. -/
def str_replace (s pat repl : String) : String :=
  ⟨replace_fuel pat.data repl.data s.data.length s.data⟩

/-- The proto2-to-proto3 conversion of `copy_tests_v2_v3` (build.rs lines
277-280): remove every `optional ` occurrence, then every `required `
occurrence, then replace the proto2 syntax declaration by the proto3 one. -/
def convert_proto_2_to_3 (proto : String) : String :=
  str_replace
    (str_replace (str_replace proto "optional " "") "required " "")
    "syntax = \"proto2\";" "syntax = \"proto3\";"

/-- Reading a file of a directory, the directory given as its listing of
file names with contents. -/
def lookup_file (d : List (String × String)) (n : String) : Option String :=
  Option.map Prod.snd (d.find? (fun p => p.1 == n))

/-- The test loop of `copy_tests_v2_v3` (build.rs lines 258-288) over the
remaining test names. For each test name it reads the v2 files `{t}_pb.proto`
and `{t}.rs` (build.rs lines 261-270) and writes the converted `.proto` and
the unchanged `.rs`, each prefixed by a `// @generated` line. A missing v2
file makes the `expect` panic, which aborts the whole loop: the files
written for earlier tests persist, nothing further is written, and the
returned flag is `false` (a completed, panic-free run returns `true`). -/
def copy_tests_loop (v2dir : List (String × String)) :
    List String → List (String × String) × Bool
  | [] => ([], true)
  | t :: rest =>
    match lookup_file v2dir (t ++ "_pb.proto"), lookup_file v2dir (t ++ ".rs") with
    | some proto, some rs =>
      ((t ++ "_pb.proto", "// @generated\n" ++ convert_proto_2_to_3 proto) ::
        (t ++ ".rs", "// @generated\n" ++ rs) :: (copy_tests_loop v2dir rest).1,
       (copy_tests_loop v2dir rest).2)
    | _, _ => ([], false)

/-- `copy_tests_v2_v3` (build.rs lines 257-289) as a function from the v2
directory's listing to the list of files written into the v3 directory (name
paired with content), together with the flag telling whether the loop ran to
completion (`false` means it panicked on a missing v2 file partway through,
writing nothing from that test on). -/
def copy_tests_v2_v3 (v2dir : List (String × String)) : List (String × String) × Bool :=
  copy_tests_loop v2dir (list_tests_in_dir (v2dir.map Prod.fst))

/-! ## Lemmas about the string order -/

theorem chars_le_total : ∀ a b : List Char, chars_le a b = true ∨ chars_le b a = true
  | [], _ => Or.inl rfl
  | _ :: _, [] => Or.inr rfl
  | x :: xs, y :: ys => by
    rcases lt_trichotomy x y with h | h | h
    · exact Or.inl (by simp [chars_le, h])
    · subst h
      rcases chars_le_total xs ys with ih | ih
      · exact Or.inl (by simp [chars_le, lt_irrefl, ih])
      · exact Or.inr (by simp [chars_le, lt_irrefl, ih])
    · exact Or.inr (by simp [chars_le, h])

theorem chars_le_trans : ∀ a b c : List Char,
    chars_le a b = true → chars_le b c = true → chars_le a c = true
  | [], _, _, _, _ => rfl
  | _ :: _, [], _, h, _ => by simp [chars_le] at h
  | _ :: _, _ :: _, [], _, h => by simp [chars_le] at h
  | x :: xs, y :: ys, z :: zs, h1, h2 => by
    simp only [chars_le] at h1 h2 ⊢
    rcases lt_trichotomy x y with hxy | hxy | hxy
    · rcases lt_trichotomy y z with hyz | hyz | hyz
      · simp [lt_trans hxy hyz]
      · subst hyz; simp [hxy]
      · simp [lt_asymm hyz, hyz] at h2
    · subst hxy
      rcases lt_trichotomy x z with hxz | hxz | hxz
      · simp [hxz]
      · subst hxz
        simp only [lt_irrefl, if_false] at h1 h2 ⊢
        exact chars_le_trans xs ys zs h1 h2
      · simp [lt_asymm hxz, hxz] at h2
    · simp [lt_asymm hxy, hxy] at h1

theorem chars_le_antisymm : ∀ a b : List Char,
    chars_le a b = true → chars_le b a = true → a = b
  | [], [], _, _ => rfl
  | [], _ :: _, _, h => by simp [chars_le] at h
  | _ :: _, [], h, _ => by simp [chars_le] at h
  | x :: xs, y :: ys, h1, h2 => by
    simp only [chars_le] at h1 h2
    rcases lt_trichotomy x y with hxy | hxy | hxy
    · simp [hxy, lt_asymm hxy] at h2
    · subst hxy
      simp only [lt_irrefl, if_false] at h1 h2
      rw [chars_le_antisymm xs ys h1 h2]
    · simp [hxy, lt_asymm hxy] at h1

instance str_order_total : IsTotal String str_order :=
  ⟨fun a b => chars_le_total a.data b.data⟩

instance str_order_trans : IsTrans String str_order :=
  ⟨fun a b c => chars_le_trans a.data b.data c.data⟩

instance str_order_antisymm : IsAntisymm String str_order :=
  ⟨fun a b h1 h2 => by
    cases a; cases b
    exact congrArg String.mk (chars_le_antisymm _ _ h1 h2)⟩

/-! ## Lemmas about the map model -/

theorem map_lookup_insert {K V : Type} [DecidableEq K] :
    ∀ (m : List (K × V)) (k : K) (v : V), map_lookup (map_insert m k v) k = some v
  | [], k, v => by simp [map_insert, map_lookup]
  | (k0, v0) :: rest, k, v => by
    by_cases h : k0 = k
    · simp [map_insert, map_lookup, h]
    · simp [map_insert, map_lookup, h, map_lookup_insert rest k v]

theorem map_keys_insert_eq {K V : Type} [DecidableEq K] :
    ∀ (m : List (K × V)) (k : K) (v : V),
      map_keys (map_insert m k v) =
        if k ∈ map_keys m then map_keys m else map_keys m ++ [k]
  | [], k, v => by simp [map_insert, map_keys]
  | (k0, v0) :: rest, k, v => by
    by_cases h : k0 = k
    · subst h
      simp [map_insert, map_keys]
    · have hne : ¬k = k0 := fun he => h he.symm
      have ih := map_keys_insert_eq rest k v
      simp only [map_keys] at ih ⊢
      by_cases hm : k ∈ List.map Prod.fst rest
      · simp [map_insert, h, hne, hm, ih]
      · simp [map_insert, h, hne, hm, ih]

theorem map_keys_insert {K V : Type} [DecidableEq K]
    (m : List (K × V)) (k k' : K) (v : V) :
    k' ∈ map_keys (map_insert m k v) ↔ k' = k ∨ k' ∈ map_keys m := by
  rw [map_keys_insert_eq]
  by_cases hm : k ∈ map_keys m
  · simp only [hm, if_true]
    constructor
    · exact Or.inr
    · rintro (he | he)
      · exact he ▸ hm
      · exact he
  · simp only [hm, if_false, List.mem_append, List.mem_singleton]
    tauto

theorem map_keys_insert_nodup {K V : Type} [DecidableEq K]
    (m : List (K × V)) (k : K) (v : V)
    (h : (map_keys m).Nodup) : (map_keys (map_insert m k v)).Nodup := by
  rw [map_keys_insert_eq]
  by_cases hm : k ∈ map_keys m
  · simpa [hm] using h
  · simp only [hm, if_false]
    exact h.append (List.nodup_singleton k)
      (fun a ha hb => hm ((List.mem_singleton.mp hb) ▸ ha))

/-! ## Claim theorems -/

/-- C1: for every has+get+set singular accessor and every value `v` of the
field's kind, after `set(msg, v)` the accessor's `has(msg)` is true and
`get(msg)` returns `v` — with `v` universally quantified, this includes the
case where `v` equals the type's declared default (e.g. after `set(msg, 0)`
on an explicit-presence int32 field, `has` stays true and `get` returns 0);
moreover `has` is false on a fresh (unset) field, so the assigned default is
distinct from unset. -/
theorem c1_singular_set_has_get {V : Type} (m : SingularHasField V) (v dflt : V) :
    singular_has (singular_fresh dflt) = false ∧
    singular_has (singular_set m v) = true ∧
    singular_get (singular_set m v) = v :=
  ⟨rfl, rfl, rfl⟩

/-- C2: for every message-field accessor, `has` is false on a fresh message;
`get_mut` on an absent field default-constructs the submessage and marks the
field present, and a later `get` returns exactly the submessage instance
`get_mut` produced; a read-only `get` while the field is absent returns the
shared default instance. -/
theorem c2_message_accessor {M : Type} (dflt : M) (f : MessageField M) :
    message_has (message_fresh : MessageField M) = false ∧
    message_has (message_get_mut dflt f).1 = true ∧
    message_get dflt (message_get_mut dflt f).1 = (message_get_mut dflt f).2 ∧
    message_get dflt (message_fresh : MessageField M) = dflt := by
  obtain ⟨slot⟩ := f
  cases slot <;>
    exact ⟨rfl, rfl, rfl, rfl⟩

/-- C3: for every simple (no-presence) accessor and every message state,
`has(msg)` holds exactly when `get(msg)` differs from the declared default;
in particular `set(msg, v)` makes `has` report `v ≠ default`, so
`set(msg, default)` makes `has` false again, and `get` after `set(msg, v)`
returns `v`. -/
theorem c3_simple_accessor {V : Type} [DecidableEq V] (dflt : V) (m : SimpleField V) (v : V) :
    (simple_has dflt m = true ↔ simple_get m ≠ dflt) ∧
    simple_has dflt (simple_set m v) = decide (v ≠ dflt) ∧
    simple_has dflt (simple_set m dflt) = false ∧
    simple_get (simple_set m v) = v := by
  refine ⟨?_, rfl, ?_, rfl⟩
  · exact decide_eq_true_iff
  · simp [simple_has, simple_set]

/-- C4: for every repeated-field accessor, pushing `v1` then `v2` onto a
fresh field makes `get` yield exactly `[v1, v2]` in that order; on any field,
pushing appends in insertion order with no reordering or deduplication; and
after `clear` the sequence has length 0. -/
theorem c4_repeated_accessor {V : Type} (f : RepeatedField V) (v1 v2 : V) :
    repeated_get (repeated_push (repeated_push (repeated_fresh : RepeatedField V) v1) v2) =
      [v1, v2] ∧
    repeated_get (repeated_push (repeated_push f v1) v2) = repeated_get f ++ [v1, v2] ∧
    repeated_len (repeated_clear f) = 0 := by
  refine ⟨rfl, ?_, rfl⟩
  simp [repeated_get, repeated_push]

/-- C5: for every map-field accessor, after `insert(k, v)` a lookup of `k`
returns `v` (hence re-inserting an existing key overwrites the previous
value); the insertion never produces a duplicate entry (key uniqueness is
preserved); and enumeration of the keys after the insertion yields exactly
the inserted key set, i.e. `k` together with the previous keys. -/
theorem c5_map_accessor {K V : Type} [DecidableEq K]
    (m : List (K × V)) (k k' : K) (v v2 : V)
    (hnd : (map_keys m).Nodup) :
    map_lookup (map_insert m k v) k = some v ∧
    map_lookup (map_insert (map_insert m k v) k v2) k = some v2 ∧
    (map_keys (map_insert m k v)).Nodup ∧
    (k' ∈ map_keys (map_insert m k v) ↔ k' = k ∨ k' ∈ map_keys m) :=
  ⟨map_lookup_insert m k v,
   map_lookup_insert (map_insert m k v) k v2,
   map_keys_insert_nodup m k v hnd,
   map_keys_insert m k k' v⟩

/-- Witness for C5 at a concrete map. -/
theorem c5_map_accessor_witness :
    map_lookup (map_insert [(1, 10)] 2 5) 2 = some 5 ∧
    map_lookup (map_insert (map_insert [(1, 10)] 2 5) 2 7) 2 = some 7 ∧
    (map_keys (map_insert [(1, 10)] 2 5)).Nodup ∧
    (1 ∈ map_keys (map_insert [(1, (10 : Nat))] 2 5) ↔ 1 = 2 ∨ 1 ∈ map_keys [(1, (10 : Nat))]) :=
  c5_map_accessor [((1 : Nat), (10 : Nat))] 2 1 5 7 (by decide)

/-- C6: passing a `Value` of the wrong kind to `set`, or invoking the
accessor against a message of the wrong type, hits the fatal assertion
(modelled as `none`, the accessor never returning normally); and whenever
the dynamic `set` does return normally, the value's kind was the field's
kind and the message was of the accessor's message type — so a defective
input is never silently coerced. -/
theorem c6_set_fails_fast (a : MsgA) (b : MsgB) (v w : PValue) (d d2 : DynMessage)
    (hk : v.kind ≠ PKind.kInt32) :
    setA_n32 (DynMessage.mA a) v = none ∧
    setA_n32 (DynMessage.mB b) w = none ∧
    (setA_n32 d w = some d2 →
      w.kind = PKind.kInt32 ∧ ∃ a0 : MsgA, d = DynMessage.mA a0) := by
  refine ⟨?_, ?_, ?_⟩
  · cases v <;> first
      | rfl
      | exact absurd rfl hk
  · cases w <;> rfl
  · cases d with
    | mA a0 =>
      cases w <;> simp [setA_n32, PValue.kind]
    | mB b0 =>
      cases w <;> simp [setA_n32, PValue.kind]

/-- Witness for C6 at a concrete wrong-kind value and wrong-typed message. -/
theorem c6_set_fails_fast_witness :
    setA_n32 (DynMessage.mA ⟨⟨0, false⟩⟩) (PValue.vString "x") = none ∧
    setA_n32 (DynMessage.mB ⟨⟨""⟩⟩) (PValue.vInt32 3) = none ∧
    (setA_n32 (DynMessage.mB ⟨⟨""⟩⟩) (PValue.vInt32 3) = some (DynMessage.mB ⟨⟨""⟩⟩) →
      (PValue.vInt32 3).kind = PKind.kInt32 ∧
      ∃ a0 : MsgA, DynMessage.mB ⟨⟨""⟩⟩ = DynMessage.mA a0) :=
  c6_set_fails_fast ⟨⟨0, false⟩⟩ ⟨⟨""⟩⟩ (PValue.vString "x") (PValue.vInt32 3)
    (DynMessage.mB ⟨⟨""⟩⟩) (DynMessage.mB ⟨⟨""⟩⟩) (by decide)

/-- C7 counterexample: the claim counts seven singular factory constructors,
one repeated and one map in the runtime reflection module, but
`reflect/rt.rs` re-exports eight singular factories (the extra one being
`make_singular_field_accessor`) and two repeated factories
(`make_vec_accessor` and `make_repeated_field_accessor`). -/
theorem c7_rt_exports_counterexample :
    ¬(rt_count AccessorShape.singularShape = 7 ∧
      rt_count AccessorShape.repeatedShape = 1 ∧
      rt_count AccessorShape.mapShape = 1) := by
  decide

/-- C7, amended: the runtime reflection module `reflect/rt.rs` exposes
eleven accessor factory constructors, each exactly once: eight singular
factories (the seven named variants plus `make_singular_field_accessor`),
two repeated-field factories (`make_vec_accessor` and
`make_repeated_field_accessor`), and one map factory. -/
theorem c7_rt_exports_amended :
    rt_factory_exports.length = 11 ∧
    rt_count AccessorShape.singularShape = 8 ∧
    rt_count AccessorShape.repeatedShape = 2 ∧
    rt_count AccessorShape.mapShape = 1 ∧
    (rt_factory_exports.map Prod.fst).Nodup := by
  decide

/-- The survival condition C8 states for a regular file: it is named
`.gitignore`, or no pattern of the accumulated pattern list matches its file
name. -/
def kept_by_spec (matchesP : String → String → Bool) (pats : List String) (n : String) : Bool :=
  n == ".gitignore" || pats.all (fun p => !matchesP p n)

/-- C8: `clean_recursively` extends the supplied patterns with the patterns
read from the directory's own `.gitignore` before looking at any entry, and
the cleaned listing of a directory is exactly the original listing filtered
by the claim's condition: subdirectories are kept (recursively cleaned under
the patterns accumulated so far, so a file deeper down is matched against
the supplied patterns plus every enclosing directory's `.gitignore`
patterns), a file named `.gitignore` is always kept with its content
untouched, and any other regular file is deleted precisely when some
accumulated pattern matches its file name — so every file whose name matches
no pattern survives untouched. -/
theorem c8_clean_frame (matchesP : String → String → Bool) (pats : List String)
    (n : String) (es : List FsEntry) :
    clean_recursively matchesP pats (FsEntry.dir n es) =
      FsEntry.dir n (clean_entries matchesP (pats ++ dir_gitignore es) es) ∧
    clean_entries matchesP pats es = es.filterMap (fun e =>
      match e with
      | FsEntry.dir n1 sub =>
        some (FsEntry.dir n1 (clean_entries matchesP (pats ++ dir_gitignore sub) sub))
      | FsEntry.file n1 c =>
        if kept_by_spec matchesP pats n1 then some (FsEntry.file n1 c) else none) := by
  refine ⟨rfl, ?_⟩
  induction es with
  | nil => simp [clean_entries]
  | cons e rest ih =>
    cases e with
    | dir n1 sub =>
      simp [clean_entries, ih]
    | file n1 c =>
      by_cases hg : n1 = ".gitignore"
      · simp [clean_entries, hg, kept_by_spec, ih]
      · by_cases hmm : (pats.any (fun p => matchesP p n1)) = true
        · have hk : kept_by_spec matchesP pats n1 = false := by
            simp only [kept_by_spec, Bool.or_eq_false_iff]
            constructor
            · simpa using hg
            · simpa [List.all_eq_true, List.any_eq_true] using hmm
          simp [clean_entries, hg, hmm, hk, ih]
        · have hk : kept_by_spec matchesP pats n1 = true := by
            simp only [kept_by_spec, Bool.or_eq_true]
            right
            simp only [List.all_eq_true, Bool.not_eq_true']
            intro p hp
            simp only [List.any_eq_true, not_exists] at hmm
            cases hcase : matchesP p n1 with
            | false => rfl
            | true => exact absurd ⟨hp, hcase⟩ (hmm p)
          simp [clean_entries, hg, hmm, hk, ih]

/-- The filter of `list_tests_in_dir`, rewritten as the single conjunction
C10 states. -/
theorem test_name_of_file_eq_spec (n : String) :
    test_name_of_file n =
      (if str_ends_with n ".rs" = true ∧ str_ends_with n "_pb.rs" = false ∧
          n ≠ "mod.rs" ∧ str_ends_with n "." = false
       then some (str_drop_right n 3) else none) := by
  by_cases h1 : str_ends_with n "." = true <;>
  by_cases h2 : str_ends_with n ".rs" = true <;>
  by_cases h3 : str_ends_with n "_pb.rs" = true <;>
  by_cases h4 : n = "mod.rs" <;>
    simp [test_name_of_file, h1, h2, h3, h4]

/-- C10: for every directory listing, `list_tests_in_dir` returns exactly
(up to the sort) the `.rs`-stripped names of the entries whose file name
ends in `.rs` but not in `_pb.rs`, is not `mod.rs`, and does not end in `.`;
the result is sorted ascending in the lexicographic string order, and two
listings that are permutations of each other (the same directory enumerated
in different orders) produce the same result. -/
theorem c10_list_tests (names names2 : List String) (hperm : names.Perm names2) :
    (list_tests_in_dir names).Perm (names.filterMap (fun n =>
      if str_ends_with n ".rs" = true ∧ str_ends_with n "_pb.rs" = false ∧
         n ≠ "mod.rs" ∧ str_ends_with n "." = false
      then some (str_drop_right n 3) else none)) ∧
    (list_tests_in_dir names).Sorted str_order ∧
    list_tests_in_dir names = list_tests_in_dir names2 := by
  have hfm : names.filterMap test_name_of_file = names.filterMap (fun n =>
      if str_ends_with n ".rs" = true ∧ str_ends_with n "_pb.rs" = false ∧
         n ≠ "mod.rs" ∧ str_ends_with n "." = false
      then some (str_drop_right n 3) else none) :=
    List.filterMap_congr (fun a _ => test_name_of_file_eq_spec a)
  refine ⟨?_, ?_, ?_⟩
  · rw [← hfm]
    exact List.perm_insertionSort str_order _
  · exact List.sorted_insertionSort str_order _
  · refine List.eq_of_perm_of_sorted ?_
      (List.sorted_insertionSort str_order _) (List.sorted_insertionSort str_order _)
    exact (List.perm_insertionSort str_order _).trans
      ((hperm.filterMap _).trans (List.perm_insertionSort str_order _).symm)

/-- Witness for C10 at a concrete directory listing and a permutation of it. -/
theorem c10_list_tests_witness :
    (list_tests_in_dir ["b.rs", "a.rs"]).Perm ((["b.rs", "a.rs"] : List String).filterMap (fun n =>
      if str_ends_with n ".rs" = true ∧ str_ends_with n "_pb.rs" = false ∧
         n ≠ "mod.rs" ∧ str_ends_with n "." = false
      then some (str_drop_right n 3) else none)) ∧
    (list_tests_in_dir ["b.rs", "a.rs"]).Sorted str_order ∧
    list_tests_in_dir ["b.rs", "a.rs"] = list_tests_in_dir ["a.rs", "b.rs"] :=
  c10_list_tests ["b.rs", "a.rs"] ["a.rs", "b.rs"] (by decide)

/-- Membership in the output of the copy loop: when every remaining test has
both of its v2 files (so the loop never panics and aborts), each listed
test's two converted files are written. -/
theorem copy_tests_loop_mem (v2dir : List (String × String)) (ts : List String)
    (t p r : String)
    (hall : ∀ u ∈ ts, (lookup_file v2dir (u ++ "_pb.proto")).isSome ∧
        (lookup_file v2dir (u ++ ".rs")).isSome)
    (ht : t ∈ ts)
    (hp : lookup_file v2dir (t ++ "_pb.proto") = some p)
    (hr : lookup_file v2dir (t ++ ".rs") = some r) :
    (t ++ "_pb.proto", "// @generated\n" ++ convert_proto_2_to_3 p) ∈
      (copy_tests_loop v2dir ts).1 ∧
    (t ++ ".rs", "// @generated\n" ++ r) ∈ (copy_tests_loop v2dir ts).1 := by
  induction ts with
  | nil => cases ht
  | cons u rest ih =>
    obtain ⟨hup, hur⟩ := hall u (List.mem_cons_self u rest)
    obtain ⟨pu, hpu⟩ := Option.isSome_iff_exists.mp hup
    obtain ⟨ru, hru⟩ := Option.isSome_iff_exists.mp hur
    rcases List.mem_cons.mp ht with he | hm
    · subst he
      constructor
      · simp [copy_tests_loop, hp, hr]
      · simp [copy_tests_loop, hp, hr]
    · have hrec := ih (fun u2 hu2 => hall u2 (List.mem_cons_of_mem u hu2)) hm
      constructor
      · simp only [copy_tests_loop, hpu, hru, List.mem_cons]
        exact Or.inr (Or.inr hrec.1)
      · simp only [copy_tests_loop, hpu, hru, List.mem_cons]
        exact Or.inr (Or.inr hrec.2)

/-- C9: for every test name found in the v2 directory (a name `t` listed by
`list_tests_in_dir` over the directory's file names), in a panic-free run —
every listed test has its `{u}_pb.proto` and `{u}.rs` v2 files, otherwise
the `expect` panic aborts the loop and later tests are not written — when
`t`'s v2 files hold contents `p` and `r`, `copy_tests_v2_v3` writes a v3
`.proto` file whose content is `// @generated\n` followed by `p` with every
`optional ` occurrence removed, then every `required ` occurrence removed,
then `syntax = "proto2";` replaced by `syntax = "proto3";`, and a v3 `.rs`
file whose content is `// @generated\n` followed by `r` otherwise
unchanged. -/
theorem c9_copy_tests (v2dir : List (String × String)) (t p r : String)
    (hall : ∀ u ∈ list_tests_in_dir (v2dir.map Prod.fst),
        (lookup_file v2dir (u ++ "_pb.proto")).isSome ∧
        (lookup_file v2dir (u ++ ".rs")).isSome)
    (ht : t ∈ list_tests_in_dir (v2dir.map Prod.fst))
    (hp : lookup_file v2dir (t ++ "_pb.proto") = some p)
    (hr : lookup_file v2dir (t ++ ".rs") = some r) :
    (t ++ "_pb.proto", "// @generated\n" ++
        str_replace (str_replace (str_replace p "optional " "") "required " "")
          "syntax = \"proto2\";" "syntax = \"proto3\";") ∈ (copy_tests_v2_v3 v2dir).1 ∧
    (t ++ ".rs", "// @generated\n" ++ r) ∈ (copy_tests_v2_v3 v2dir).1 :=
  copy_tests_loop_mem v2dir (list_tests_in_dir (v2dir.map Prod.fst)) t p r hall ht hp hr

/-- Witness for C9 at a concrete one-test v2 directory. -/
theorem c9_copy_tests_witness :
    ("foo" ++ "_pb.proto", "// @generated\n" ++
        str_replace (str_replace (str_replace "syntax = \"proto2\";\noptional int32 a = 1;"
            "optional " "") "required " "")
          "syntax = \"proto2\";" "syntax = \"proto3\";") ∈
      (copy_tests_v2_v3
        [("foo_pb.proto", "syntax = \"proto2\";\noptional int32 a = 1;"), ("foo.rs", "fn t();")]).1 ∧
    ("foo" ++ ".rs", "// @generated\n" ++ "fn t();") ∈
      (copy_tests_v2_v3
        [("foo_pb.proto", "syntax = \"proto2\";\noptional int32 a = 1;"), ("foo.rs", "fn t();")]).1 :=
  c9_copy_tests
    [("foo_pb.proto", "syntax = \"proto2\";\noptional int32 a = 1;"), ("foo.rs", "fn t();")]
    "foo" "syntax = \"proto2\";\noptional int32 a = 1;" "fn t();"
    (by decide) (by decide) (by decide) (by decide)

end RustProtobuf
